import Mathlib

/-!
Verification of the resume-screening retrieval pipeline.

The Python modules `src/ranker.py` and `src/embeddings.py` are shallowly
embedded below.  Distances and similarity scores are modelled as rationals
(`ℚ`); the FAISS vector store is modelled at the boundary used by
`rank_resumes`: a function from a query string and a `k` to either a list of
`(Document, distance)` pairs or an exception (`Except.error`).  Python's
`list.sort(key=..., reverse=True)` is a stable sort; it is modelled by
`List.insertionSort`, which is likewise stable.
-/

namespace ResumeScreening

/-- A langchain `Document` as used by the repository: `page_content` plus the
`"source"` entry of its metadata dict (`doc.metadata.get("source", ...)`). -/
structure Document where
  page_content : String
  metadata_source : Option String
deriving DecidableEq

/-- One entry of the list returned by `rank_resumes`: the candidate dict
`{"source": ..., "score": ..., "content": ...}` built in `src/ranker.py`. -/
structure Candidate where
  source : String
  score : ℚ
  content : String
deriving DecidableEq

/-- The behaviour of `vector_store.similarity_search_with_score` as seen by
`rank_resumes`: given the query text and `k`, the external call either
returns scored documents or raises (modelled by `Except.error`). -/
abbrev SearchFn : Type := String → Nat → Except String (List (Document × ℚ))

/-- The candidate dict built from one `(doc, score)` pair of the search
result: `source` defaults to `"Unknown"`, `score` is `1 - distance`,
`content` is the page content (`src/ranker.py`, lines 41-47). -/
def candidateOf (ds : Document × ℚ) : Candidate :=
  { source := ds.1.metadata_source.getD "Unknown"
    score := 1 - ds.2
    content := ds.1.page_content }

/-- The comparison used by `ranked_candidates.sort(key=lambda x: x["score"],
reverse=True)`: `a` may precede `b` iff `a`'s score is at least `b`'s. -/
abbrev scoreGE (a b : Candidate) : Prop := b.score ≤ a.score

instance : IsTotal Candidate scoreGE := ⟨fun a b => le_total b.score a.score⟩

instance : IsTrans Candidate scoreGE := ⟨fun _ _ _ h1 h2 => le_trans h2 h1⟩

/-- `rank_resumes` from `src/ranker.py`.  An empty job description returns
`[]` after a warning; the search call sits inside `try/except Exception`, so
an error from the store also yields `[]`; otherwise each scored document is
turned into a candidate dict and the list is sorted by score descending. -/
def rank_resumes (vector_store : SearchFn) (job_description : String)
    (top_k : Nat := 5) : List Candidate :=
  if job_description = "" then []
  else
    match vector_store job_description top_k with
    | Except.error _ => []
    | Except.ok results =>
        List.insertionSort scoreGE (results.map candidateOf)

/-- A store over a single healthy document, used for concrete evaluations. -/
def demoDoc : Document :=
  { page_content := "Experienced Python developer", metadata_source := some "resume1.txt" }

/-- A search function that returns `demoDoc` at distance `1/10`. -/
def demoStore : SearchFn := fun _ k => Except.ok ([(demoDoc, (1 : ℚ)/10)].take k)

/-- A search function whose underlying embedding model raises. -/
def failStore : SearchFn := fun _ _ => Except.error "EmbeddingUnavailableError"

/-- Two chunks of the same source file, at different distances. -/
def docA : Document :=
  { page_content := "chunk one of resume1", metadata_source := some "resume1.txt" }

/-- Second chunk of the same source as `docA`. -/
def docB : Document :=
  { page_content := "chunk two of resume1", metadata_source := some "resume1.txt" }

/-- A search function that retrieves two chunks sharing one source. -/
def dupStore : SearchFn :=
  fun _ _ => Except.ok [(docA, (1 : ℚ)/10), (docB, (3 : ℚ)/10)]

/-- A search function returning a document at distance `3/2 > 1`. -/
def farDoc : Document :=
  { page_content := "unrelated text", metadata_source := some "resume9.txt" }

/-- Store retrieving `farDoc` at distance `3/2`, giving score `-1/2`. -/
def farStore : SearchFn := fun _ _ => Except.ok [(farDoc, (3 : ℚ)/2)]

/-- Modelled from the spec: the Vector Index component (section 4.3) is
implemented by the external FAISS library, not by code under `src/`; this
model follows the spec's contract: entries are `(vector, chunk, source-id)`
triples and `query` answers k-nearest-neighbor by distance. -/
structure EmbeddedChunk where
  source_id : String
  text : String
  vector : List ℚ
deriving DecidableEq

/-- Squared Euclidean distance between two vectors; ordering by squared
distance agrees with ordering by Euclidean distance, which is what the
nearest-neighbor query needs. -/
def dist2 (u v : List ℚ) : ℚ :=
  (List.zipWith (fun a b => (a - b) * (a - b)) u v).sum

/-- Comparison by distance, ascending (lower distance = more similar). -/
abbrev distLE (a b : EmbeddedChunk × ℚ) : Prop := a.2 ≤ b.2

instance : IsTotal (EmbeddedChunk × ℚ) distLE := ⟨fun a b => le_total a.2 b.2⟩

instance : IsTrans (EmbeddedChunk × ℚ) distLE := ⟨fun _ _ _ => le_trans⟩

/-- Modelled from the spec: `query(vector, k)` of the Vector Index returns
the entries paired with their distances, ascending by distance with ties
broken by insertion order (`insertionSort` is stable), truncated to `k`;
`take` never fails, so an oversized `k` is clamped to the corpus size. -/
def queryIndex (entries : List EmbeddedChunk) (v : List ℚ) (k : Nat) :
    List (EmbeddedChunk × ℚ) :=
  (List.insertionSort distLE (entries.map fun e => (e, dist2 v e.vector))).take k

/-- A concrete two-entry corpus for evaluating `queryIndex`. -/
def demoEntries : List EmbeddedChunk :=
  [{ source_id := "resume1.txt", text := "python developer", vector := [1, 0] },
   { source_id := "resume2.txt", text := "java developer", vector := [0, 1] }]

/-- Modelled from the spec: the raw window generator of the Chunker
(section 4.1), which is implemented by langchain's
`RecursiveCharacterTextSplitter`, not by code under `src/`.  Text is
modelled as a list of characters.  `windows size step1 l` is the sequence
of chunks of up to `size` characters whose start positions are
`0, step1+1, 2*(step1+1), ...`; consecutive chunks overlap in
`size - (step1+1)` characters.  `split` guards empty and whitespace-only
input before calling this, so `windows` only ever sees text with at least
one non-whitespace character. -/
def windows (size step1 : Nat) : List Char → List (List Char)
  | [] => []
  | c :: cs => (c :: cs).take size :: windows size step1 (cs.drop step1)
termination_by l => l.length
decreasing_by simp [List.length_drop]; omega

/-- Modelled from the spec: `split(text, chunk_size, overlap)` fails with
`ConfigurationError` unless `overlap < chunk_size`; empty or
whitespace-only input produces zero chunks, not an error; any other input
produces the overlapping windows (step `chunk_size - overlap`). -/
def split (text : List Char) (chunk_size overlap : Nat) :
    Except String (List (List Char)) :=
  if chunk_size ≤ overlap then Except.error "ConfigurationError"
  else if text.all (fun c => c.isWhitespace) then Except.ok []
  else Except.ok (windows chunk_size (chunk_size - overlap - 1) text)

/-- Concatenation of chunks in order with the `overlap` leading characters
of every chunk after the first dropped — the reconstruction described by
the chunk-coverage property. -/
def dropOverlapJoin (overlap : Nat) : List (List Char) → List Char
  | [] => []
  | c :: rest => c ++ (rest.map (List.drop overlap)).flatten

/-- A directory entry as seen by `get_documents_from_folder`: its filename,
whether `os.path.isfile` holds, and the outcome of handing it to the
external parser (`fitz` for PDF, `python-docx` for DOCX), which may raise
(`Except.error`). -/
structure FSFile where
  name : String
  isFile : Bool
  parse : Except String String

/-- Python's `str.endswith`, modelled on the character data of the
string so that it evaluates by kernel reduction. -/
def endsWithExt (s suffix : String) : Bool :=
  suffix.data.isSuffixOf s.data

/-- `extract_text_from_file` from `src/embeddings.py`: PDF and DOCX files
are handed to the external parser; any other extension yields `""` after a
warning; the whole body sits in `try/except`, so a parser exception also
yields `""`.  The function always returns a string, never raises. -/
def extract_text_from_file (f : FSFile) : String :=
  if endsWithExt f.name ".pdf" then
    match f.parse with
    | Except.ok t => t
    | Except.error _ => ""
  else if endsWithExt f.name ".docx" then
    match f.parse with
    | Except.ok t => t
    | Except.error _ => ""
  else ""

/-- `get_documents_from_folder` from `src/embeddings.py`: for each directory
entry that is a file, extract its text; a `Document` is appended only when
the extracted text is non-empty (`if text:`). -/
def get_documents_from_folder (files : List FSFile) : List Document :=
  files.filterMap fun f =>
    if f.isFile then
      if extract_text_from_file f ≠ "" then
        some { page_content := extract_text_from_file f,
               metadata_source := some f.name }
      else none
    else none

/-- A healthy PDF file whose parser succeeds. -/
def goodPdf : FSFile :=
  { name := "resume1.pdf", isFile := true,
    parse := Except.ok "Experienced Python developer" }

/-- A corrupt PDF file whose parser raises. -/
def badPdf : FSFile :=
  { name := "broken.pdf", isFile := true,
    parse := Except.error "cannot open broken.pdf" }

/-- C4: every list returned by `rank_resumes` is in descending score order:
adjacent entries satisfy `score[i] >= score[i+1]`. -/
theorem rank_resumes_sorted_desc (store : SearchFn) (jd : String) (k : Nat) :
    List.Chain' (fun a b : Candidate => b.score ≤ a.score)
      (rank_resumes store jd k) := by
  unfold rank_resumes
  split
  · exact List.chain'_nil
  · split
    · exact List.chain'_nil
    · exact (List.sorted_insertionSort scoreGE _).chain'

/-- C2 (amended): `rank_resumes` with an empty job description returns the
empty list as an ordinary result; no exception is raised. -/
theorem rank_resumes_empty_query (store : SearchFn) (k : Nat) :
    rank_resumes store "" k = [] := by
  simp [rank_resumes]

/-- C2 counterexample: with a perfectly healthy store, the empty query
produces `[]` as a success value — the very answer the claim says the caller
never receives — while a non-empty query on the same store is non-empty, so
the `[]` is indistinguishable from "no matches". -/
theorem rank_resumes_empty_query_cex :
    rank_resumes demoStore "" 5 = [] ∧ rank_resumes demoStore "job" 5 ≠ [] := by
  constructor
  · rfl
  · decide

/-- C3 (amended): when the embedding/index call inside `rank_resumes` raises,
the exception is caught by the blanket `except Exception` handler and the
caller receives an empty list as a success value. -/
theorem rank_resumes_swallows_error (store : SearchFn) (jd : String) (k : Nat)
    (e : String) (h : store jd k = Except.error e) :
    rank_resumes store jd k = [] := by
  by_cases hjd : jd = "" <;> simp [rank_resumes, hjd, h]

/-- Witness for `rank_resumes_swallows_error` at the failing store. -/
theorem rank_resumes_swallows_error_witness :
    rank_resumes failStore "job" 5 = [] :=
  rank_resumes_swallows_error failStore "job" 5 "EmbeddingUnavailableError" rfl

/-- C3 counterexample: the store raises, yet `rank_resumes` returns `[]` as a
success value instead of propagating the failure. -/
theorem rank_resumes_error_propagation_cex :
    failStore "job" 5 = Except.error "EmbeddingUnavailableError" ∧
      rank_resumes failStore "job" 5 = [] := by
  constructor <;> rfl

/-- C1 (amended): on a successful search with a non-empty query, the output
of `rank_resumes` is a permutation of one candidate per retrieved chunk —
no per-source deduplication takes place, so chunks sharing a source all
stay in the list. -/
theorem rank_resumes_one_entry_per_chunk (store : SearchFn) (jd : String)
    (k : Nat) (rs : List (Document × ℚ)) (hjd : jd ≠ "")
    (h : store jd k = Except.ok rs) :
    (rank_resumes store jd k).Perm (rs.map candidateOf) := by
  simp only [rank_resumes, if_neg hjd, h]
  exact List.perm_insertionSort scoreGE _

/-- Witness for `rank_resumes_one_entry_per_chunk` on the demo store. -/
theorem rank_resumes_one_entry_per_chunk_witness :
    (rank_resumes demoStore "job" 5).Perm
      ((List.take 5 [(demoDoc, (1 : ℚ)/10)]).map candidateOf) :=
  rank_resumes_one_entry_per_chunk demoStore "job" 5
    (List.take 5 [(demoDoc, (1 : ℚ)/10)]) (by decide) rfl

/-- C1 counterexample: a search retrieving two chunks of the same source
yields two entries with the same `source` value, refuting per-source
uniqueness of the result of `rank_resumes`. -/
theorem rank_resumes_per_source_uniqueness_cex :
    ¬ List.Pairwise (fun a b : Candidate => a.source ≠ b.source)
      (rank_resumes dupStore "job" 2) := by
  intro hp
  have hperm : (rank_resumes dupStore "job" 2).Perm
      [candidateOf (docA, (1 : ℚ)/10), candidateOf (docB, (3 : ℚ)/10)] := by
    show (List.insertionSort scoreGE
      [candidateOf (docA, (1 : ℚ)/10), candidateOf (docB, (3 : ℚ)/10)]).Perm _
    exact List.perm_insertionSort scoreGE _
  have hp2 := (List.Perm.pairwise_iff
    (fun {a b : Candidate} (h : a.source ≠ b.source) => Ne.symm h) hperm).mp hp
  have := (List.pairwise_cons.mp hp2).1 (candidateOf (docB, (3 : ℚ)/10))
    (List.mem_singleton.mpr rfl)
  exact this rfl

/-- C5: every `(doc, distance)` pair of a successful search appears in the
result of `rank_resumes` as the candidate with score `1 - distance`; nothing
restricts the sign of that score, so a negative score is an ordinary member
of the result, not an error. -/
theorem rank_resumes_score_transform (store : SearchFn) (jd : String)
    (k : Nat) (rs : List (Document × ℚ)) (doc : Document) (d : ℚ)
    (hjd : jd ≠ "") (h : store jd k = Except.ok rs) (hm : (doc, d) ∈ rs) :
    ({ source := doc.metadata_source.getD "Unknown", score := 1 - d,
       content := doc.page_content } : Candidate) ∈ rank_resumes store jd k := by
  simp only [rank_resumes, if_neg hjd, h, List.mem_insertionSort]
  exact List.mem_map_of_mem candidateOf hm

/-- Witness for `rank_resumes_score_transform`: the retrieved document sits
at distance `3/2`, so its score `1 - 3/2` is negative, and it is still a
member of the returned list. -/
theorem rank_resumes_score_transform_witness :
    ({ source := (farDoc.metadata_source).getD "Unknown",
       score := 1 - (3 : ℚ)/2,
       content := farDoc.page_content } : Candidate) ∈
      rank_resumes farStore "job" 5 :=
  rank_resumes_score_transform farStore "job" 5 [(farDoc, (3 : ℚ)/2)] farDoc
    ((3 : ℚ)/2) (by decide) rfl (List.mem_singleton.mpr rfl)

/-- C6: querying an index of `n` entries with `k > n` returns exactly `n`
entries — `k` is clamped to the corpus size — and, `queryIndex` being a
total function, no error is raised. -/
theorem queryIndex_clamps (entries : List EmbeddedChunk) (v : List ℚ)
    (k : Nat) (h : entries.length < k) :
    (queryIndex entries v k).length = entries.length := by
  unfold queryIndex
  rw [List.length_take, (List.perm_insertionSort distLE _).length_eq,
    List.length_map]
  omega

/-- Witness for `queryIndex_clamps`: a two-entry corpus queried with
`k = 5` yields exactly two results. -/
theorem queryIndex_clamps_witness :
    (queryIndex demoEntries [1, 0] 5).length = demoEntries.length :=
  queryIndex_clamps demoEntries [1, 0] 5 (by decide)

/-- C7: `split` fails with `ConfigurationError` exactly when
`overlap >= chunk_size`; for every `overlap < chunk_size` it succeeds. -/
theorem split_configuration_error (text : List Char) (csize ov : Nat) :
    split text csize ov = Except.error "ConfigurationError" ↔ csize ≤ ov := by
  unfold split
  by_cases h : csize ≤ ov
  · simp [h]
  · rw [if_neg h]
    split <;> simp [h]

/-- Dropping the first `ov` characters of every window and concatenating
recovers the input text minus its first `ov` characters. -/
theorem windows_map_drop_flatten (size ov : Nat) (hov : ov < size) :
    ∀ l : List Char,
      ((windows size (size - ov - 1) l).map (List.drop ov)).flatten =
        List.drop ov l
  | [] => by simp [windows]
  | c :: rest => by
      have hrec :=
        windows_map_drop_flatten size ov hov (rest.drop (size - ov - 1))
      simp only [windows, List.map_cons, List.flatten_cons, hrec]
      rw [List.drop_drop]
      have h1 : size - ov - 1 + ov = size - 1 := by omega
      rw [h1, List.drop_take]
      have h2 : List.drop (size - ov) (List.drop ov (c :: rest)) =
          List.drop (size - 1) rest := by
        rw [List.drop_drop]
        have h3 : ov + (size - ov) = size - 1 + 1 := by omega
        rw [h3, List.drop_succ_cons]
      rw [← h2, List.take_append_drop]
termination_by l => l.length
decreasing_by simp [List.length_drop]; omega

/-- C8 counterexample: the whitespace-only text `" "` is split into zero
chunks (section 4.1: "Empty or whitespace-only input produces zero chunks,
not an error"), and the overlap-dropping concatenation of zero chunks is
the empty text, not `" "` — so reconstruction does not hold for every
input text. -/
theorem split_reconstructs_cex :
    split [' '] 3 1 = Except.ok [] ∧ dropOverlapJoin 1 [] ≠ [' '] := by
  constructor
  · rfl
  · decide

/-- C8 (amended): whenever `split` succeeds on text with at least one
non-whitespace character, concatenating its chunks in order with the
overlapping characters of every later chunk dropped reconstructs the input
text exactly — no characters are lost.  (Empty or whitespace-only input
instead produces zero chunks, whose concatenation is empty.) -/
theorem split_reconstructs (text : List Char) (csize ov : Nat)
    (chunks : List (List Char))
    (h : split text csize ov = Except.ok chunks)
    (hws : text.all (fun c => c.isWhitespace) = false) :
    dropOverlapJoin ov chunks = text := by
  unfold split at h
  by_cases hcfg : csize ≤ ov
  · rw [if_pos hcfg] at h
    exact absurd h (by simp)
  · rw [if_neg hcfg, hws] at h
    simp only [Bool.false_eq_true, if_false] at h
    have hov : ov < csize := Nat.lt_of_not_le hcfg
    cases h
    match text with
    | [] => simp [windows, dropOverlapJoin]
    | c :: rest =>
        simp only [windows, dropOverlapJoin,
          windows_map_drop_flatten csize ov hov]
        rw [List.drop_drop]
        have h1 : csize - ov - 1 + ov = csize - 1 := by omega
        rw [h1]
        have h2 : List.drop (csize - 1) rest = List.drop csize (c :: rest) := by
          have h3 : csize = csize - 1 + 1 := by omega
          conv_rhs => rw [h3, List.drop_succ_cons]
        rw [h2, List.take_append_drop]

/-- Witness for `split_reconstructs`: splitting `"abcde"` with chunk size 3
and overlap 1 gives chunks `abc / cde / e`, whose overlap-dropping
concatenation is `"abcde"` again. -/
theorem split_reconstructs_witness :
    dropOverlapJoin 1 [['a', 'b', 'c'], ['c', 'd', 'e'], ['e']] =
      ['a', 'b', 'c', 'd', 'e'] :=
  split_reconstructs ['a', 'b', 'c', 'd', 'e'] 3 1
    [['a', 'b', 'c'], ['c', 'd', 'e'], ['e']]
    (by
      have hws : List.all ['a', 'b', 'c', 'd', 'e']
          (fun c => c.isWhitespace) = false := rfl
      simp [split, hws, windows])
    rfl

/-- C9: text extraction is total — an unsupported extension yields `""`, a
parser exception yields `""` — and a file whose extraction yields `""` is
skipped while the rest of the batch is processed unchanged. -/
theorem extract_recovers_locally (f : FSFile) (pre post : List FSFile) :
    (endsWithExt f.name ".pdf" = false → endsWithExt f.name ".docx" = false →
        extract_text_from_file f = "") ∧
    (∀ e, f.parse = Except.error e → extract_text_from_file f = "") ∧
    (extract_text_from_file f = "" →
      get_documents_from_folder (pre ++ f :: post) =
        get_documents_from_folder pre ++ get_documents_from_folder post) := by
  refine ⟨fun h1 h2 => ?_, fun e he => ?_, fun hf => ?_⟩
  · simp [extract_text_from_file, h1, h2]
  · unfold extract_text_from_file
    rw [he]
    split
    · rfl
    · split
      · rfl
      · rfl
  · unfold get_documents_from_folder
    rw [List.filterMap_append, List.filterMap_cons]
    simp [hf]

/-- Witness for `extract_recovers_locally`: the corrupt PDF extracts to
`""` and is skipped, while the healthy file before it is still collected. -/
theorem extract_recovers_locally_witness :
    extract_text_from_file badPdf = "" ∧
      get_documents_from_folder ([goodPdf] ++ badPdf :: []) =
        get_documents_from_folder [goodPdf] ++ get_documents_from_folder [] := by
  refine ⟨?_, ?_⟩
  · exact (extract_recovers_locally badPdf [goodPdf] []).2.1
      "cannot open broken.pdf" rfl
  · exact (extract_recovers_locally badPdf [goodPdf] []).2.2
      ((extract_recovers_locally badPdf [goodPdf] []).2.1
        "cannot open broken.pdf" rfl)

/-- C10: every document returned by `get_documents_from_folder` has
non-empty `page_content`, so no empty-text document reaches the vector
store built from that list. -/
theorem documents_have_content (files : List FSFile) (d : Document)
    (h : d ∈ get_documents_from_folder files) : d.page_content ≠ "" := by
  unfold get_documents_from_folder at h
  rw [List.mem_filterMap] at h
  obtain ⟨f, -, hf⟩ := h
  by_cases h1 : f.isFile
  · rw [if_pos h1] at hf
    by_cases h2 : extract_text_from_file f ≠ ""
    · rw [if_pos h2] at hf
      injection hf with h3
      subst h3
      exact h2
    · rw [if_neg h2] at hf
      exact absurd hf (by simp)
  · rw [if_neg h1] at hf
    exact absurd hf (by simp)

/-- Witness for `documents_have_content` at the collected healthy file. -/
theorem documents_have_content_witness :
    ({ page_content := "Experienced Python developer",
       metadata_source := some "resume1.pdf" } : Document).page_content ≠ "" :=
  documents_have_content [goodPdf]
    { page_content := "Experienced Python developer",
      metadata_source := some "resume1.pdf" }
    (by decide)

end ResumeScreening
